import Mathlib

/-!
Shallow embedding of the MacroImmunet_demo spatial label field store:

* `label_center/label_center_base.py`, class `LabelCenterBase` — the
  tick-decaying, ownership-arbitrated field store (emit / read / claim /
  release / prune);
* `label_center/label_center.py`, class `LabelCenter` — the intent queue
  with tick-atomic apply and the grid-summary cache;
* `scan_master/decayer.py`, `Decayer._decay_mass` — the half-life decay
  function.

Modelling conventions: Python dicts become association lists with
first-occurrence lookup/update (a dict never holds duplicate keys, and every
state reachable from the constructors is duplicate-free; well-formedness is
the explicit `WF` predicate where a proof needs it); floats become exact
rationals for the store and exact reals for the half-life decayer; a raised
Python exception becomes `Except.error`; `payload.get(k)` becomes an
`Option` field.
-/

namespace MacroImmunet

/-- Coordinate key: the Python store keys buckets by coordinate tuples. -/
abbrev Coord := ℤ × ℤ

/-- Python `d.get(k)`: first-occurrence association-list lookup. -/
def lookupA {α β : Type} [DecidableEq α] : List (α × β) → α → Option β
  | [], _ => none
  | (k, v) :: t, a => if k = a then some v else lookupA t a

/-- Python `d[k] = v`: replace the first occurrence, else append. -/
def setA {α β : Type} [DecidableEq α] : List (α × β) → α → β → List (α × β)
  | [], a, b => [(a, b)]
  | (k, v) :: t, a, b => if k = a then (k, b) :: t else (k, v) :: setA t a b

/-- One field entry, the per-(coord, label) record of `label_field`.
`owned_by` and `cooldown_until` model keys that may be absent from the
Python entry dict (`entry.get(...)` returning `None`). -/
structure Entry where
  value : ℚ
  last_tick : ℤ
  owned_by : Option String
  cooldown_until : Option ℤ
deriving DecidableEq

/-- An intent dict `{"name": ..., "payload": {"coord", "label", "amount"}}`;
`Option` models a key missing from the payload. -/
structure Intent where
  name : String
  coord : Option Coord
  label : Option String
  amount : Option ℚ
deriving DecidableEq

/-- The `LabelCenterBase` store state.  The Python constructor defaults are
`decay_rate=0.9`, `claim_cooldown=0`, `prune_threshold=0.0`, `current_tick=0`
and an empty `label_field` (see `LabelCenterBase.init`).  The alias
`self.field = self.label_field` is omitted: it is the same object. -/
structure LabelCenterBase where
  decay_rate : ℚ
  claim_cooldown : ℤ
  prune_threshold : ℚ
  current_tick : ℤ
  label_field : List (Coord × List (String × Entry))
deriving DecidableEq

namespace LabelCenterBase

/-- `LabelCenterBase(decay_rate, claim_cooldown, prune_threshold)`. -/
def init (decay_rate : ℚ) (claim_cooldown : ℤ) (prune_threshold : ℚ) :
    LabelCenterBase :=
  ⟨decay_rate, claim_cooldown, prune_threshold, 0, []⟩

/-- `self.label_field.get(coord, dict()).get(label)`. -/
def lookupField (st : LabelCenterBase) (coord : Coord) (label : String) :
    Option Entry :=
  (lookupA st.label_field coord).bind (fun b => lookupA b label)

/-- In-place mutation of the entry found at `(coord, label)`:
`self.label_field[coord][label_name] = e` on an existing bucket. -/
def updateField (st : LabelCenterBase) (coord : Coord) (label : String)
    (e : Entry) : LabelCenterBase :=
  { st with
    label_field :=
      setA st.label_field coord
        (setA ((lookupA st.label_field coord).getD []) label e) }

/-- `LabelCenterBase._decay(value, last_tick)`:
`dt = current_tick - last_tick`; `dt <= 0` or `decay_rate <= 0` return the
value unchanged, otherwise `value * decay_rate ** dt`. -/
def _decay (st : LabelCenterBase) (value : ℚ) (last_tick : ℤ) : ℚ :=
  let dt := st.current_tick - last_tick
  if dt ≤ 0 then value
  else if st.decay_rate ≤ 0 then value
  else value * st.decay_rate ^ dt.toNat

/-- `LabelCenterBase._consume_intent(intent)`.  Non-`emit_label` intents and
payloads with a missing coord or label are ignored; an entry owned by a
claimant silently discards the emit; otherwise the entry is settled by
`_decay` and the amount merged in, or a fresh entry is created.  The
`defaultdict` access `self.label_field[coord]` is modelled by `getD []`:
when the target entry already exists the bucket exists too, and the two
creation branches write the bucket back. -/
def _consume_intent (st : LabelCenterBase) (intent : Intent) :
    LabelCenterBase :=
  if intent.name = "emit_label" then
    match intent.coord, intent.label with
    | some coord, some label =>
      match lookupA ((lookupA st.label_field coord).getD []) label with
      | some entry =>
        if entry.owned_by.isSome then st
        else
          st.updateField coord label
            { entry with
              value := st._decay entry.value entry.last_tick
                + intent.amount.getD 0
              last_tick := st.current_tick }
      | none =>
        st.updateField coord label
          ⟨intent.amount.getD 0, st.current_tick, none, none⟩
    | _, _ => st
  else st

/-- `LabelCenterBase.consume_intents(intents)`: consume in order. -/
def consume_intents (st : LabelCenterBase) (intents : List Intent) :
    LabelCenterBase :=
  intents.foldl _consume_intent st

/-- `LabelCenterBase.advance_tick(tick)`: monotonicity-guarded advance. -/
def advance_tick (st : LabelCenterBase) (tick : ℤ) : LabelCenterBase :=
  if tick < st.current_tick then st else { st with current_tick := tick }

/-- `LabelCenterBase.tick(step)`: unguarded `current_tick += step`
(`step` defaults to 1 in Python). -/
def tick (st : LabelCenterBase) (step : ℤ) : LabelCenterBase :=
  { st with current_tick := st.current_tick + step }

/-- `LabelCenterBase.get_label(coord, label)`: lazy, non-mutating read.
Missing entry reads as 0; an owned entry is returned frozen; an unowned
entry is decayed to now, and reads as 0 below the perception threshold. -/
def get_label (st : LabelCenterBase) (coord : Coord) (label : String) : ℚ :=
  match st.lookupField coord label with
  | none => 0
  | some entry =>
    if entry.owned_by.isSome then entry.value
    else
      let value := st._decay entry.value entry.last_tick
      if value < st.prune_threshold then 0 else value

/-- `LabelCenterBase.release_label(coord, label_name, by)`: raises
`KeyError` when the entry does not exist and `ValueError` when the caller
is not the owner; otherwise clears `owned_by` and arms the cooldown. -/
def release_label (st : LabelCenterBase) (coord : Coord) (label_name : String)
    (by_ : String) : Except String LabelCenterBase :=
  match st.lookupField coord label_name with
  | none => Except.error "KeyError: Label not found"
  | some entry =>
    if entry.owned_by ≠ some by_ then
      Except.error "ValueError: not owned by caller"
    else
      Except.ok
        (st.updateField coord label_name
          { entry with
            owned_by := none
            cooldown_until := some (st.current_tick + st.claim_cooldown) })

/-- `LabelCenterBase.claim_label(coord, label_name, by)`: raises `KeyError`
when the entry does not exist; returns `False` when owned or cooling down;
otherwise records the claimant and returns `True`. -/
def claim_label (st : LabelCenterBase) (coord : Coord) (label_name : String)
    (by_ : String) : Except String (Bool × LabelCenterBase) :=
  match st.lookupField coord label_name with
  | none => Except.error "KeyError: label not found"
  | some entry =>
    if entry.owned_by.isSome then Except.ok (false, st)
    else
      match entry.cooldown_until with
      | some cooldown_until =>
        if st.current_tick < cooldown_until then Except.ok (false, st)
        else
          Except.ok
            (true, st.updateField coord label_name
              { entry with owned_by := some by_ })
      | none =>
        Except.ok
          (true, st.updateField coord label_name
            { entry with owned_by := some by_ })

/-- Per-entry effect of `prune` (the second, effective definition in the
source): owned entries are skipped; unowned entries get decay settled onto
them and are dropped when the settled value is below `prune_threshold`. -/
def pruneEntry (st : LabelCenterBase) (entry : Entry) : Option Entry :=
  if entry.owned_by.isSome then some entry
  else
    let decayed := st._decay entry.value entry.last_tick
    if decayed < st.prune_threshold then none
    else some { entry with value := decayed, last_tick := st.current_tick }

/-- Per-bucket effect of `prune`: the in-place mutate/delete loop over
`list(labels.keys())`. -/
def pruneBucket (st : LabelCenterBase) (b : List (String × Entry)) :
    List (String × Entry) :=
  b.filterMap (fun p => (pruneEntry st p.2).map (fun e => (p.1, e)))

/-- `LabelCenterBase.prune()` — the second (shadowing, hence effective)
definition: settle decay on every unowned entry, delete it when the settled
value is below the threshold, then drop coordinates left with an empty
bucket. -/
def prune (st : LabelCenterBase) : LabelCenterBase :=
  { st with
    label_field :=
      (st.label_field.map (fun p => (p.1, pruneBucket st p.2))).filter
        (fun p => !p.2.isEmpty) }

/-- Well-formedness of a store state: no duplicate coordinate keys and no
duplicate label keys inside a bucket (automatic for Python dicts). -/
abbrev WF (st : LabelCenterBase) : Prop :=
  (st.label_field.map Prod.fst).Nodup ∧
    ∀ p ∈ st.label_field, (p.2.map Prod.fst).Nodup

/-- All entry values of the store are non-negative. -/
abbrev Nonneg (st : LabelCenterBase) : Prop :=
  ∀ p ∈ st.label_field, ∀ q ∈ p.2, 0 ≤ (Prod.snd q).value

end LabelCenterBase

/-- One public mutating operation of the field store; exceptions raised by
`claim_label` / `release_label` leave the store unchanged (the Python
methods raise before any mutation). -/
inductive Op
  | consume (intents : List Intent)
  | advance (t : ℤ)
  | step (s : ℤ)
  | claim (c : Coord) (l : String) (by_ : String)
  | release (c : Coord) (l : String) (by_ : String)
  | prune
deriving DecidableEq

/-- Apply one operation to the store. -/
def applyOp (st : LabelCenterBase) : Op → LabelCenterBase
  | .consume intents => st.consume_intents intents
  | .advance t => st.advance_tick t
  | .step s => st.tick s
  | .claim c l b =>
    match st.claim_label c l b with
    | .ok (_, st') => st'
    | .error _ => st
  | .release c l b =>
    match st.release_label c l b with
    | .ok st' => st'
    | .error _ => st
  | .prune => st.prune

/-- All amounts carried by a `consume` operation are non-negative
(a missing amount defaults to 0). -/
abbrev Op.amountsNonneg : Op → Prop
  | .consume intents => ∀ i ∈ intents, 0 ≤ (Intent.amount i).getD 0
  | _ => True

instance decidableAmountsNonneg : (op : Op) → Decidable op.amountsNonneg
  | .consume intents =>
    inferInstanceAs (Decidable (∀ i ∈ intents, 0 ≤ (Intent.amount i).getD 0))
  | .advance _ => inferInstanceAs (Decidable True)
  | .step _ => inferInstanceAs (Decidable True)
  | .claim _ _ _ => inferInstanceAs (Decidable True)
  | .release _ _ _ => inferInstanceAs (Decidable True)
  | .prune => inferInstanceAs (Decidable True)

namespace Decayer

/-- `Decayer._decay_mass(mass, dt, half_life)` with the instance parameter
`min_half_life` explicit (Python default `1e-6`): non-positive elapsed time
returns the mass unchanged; a half-life below `min_half_life` — including
every half-life `≤ 0` — is clamped up to `min_half_life`; then
`mass * 0.5 ** (dt / half_life)`. -/
noncomputable def decay_mass (min_half_life mass dt half_life : ℝ) : ℝ :=
  if dt ≤ 0 then mass
  else
    let hl := if half_life < min_half_life then min_half_life else half_life
    mass * (1 / 2 : ℝ) ^ (dt / hl)

end Decayer

/-- One queued batch of `LabelCenter.enqueue_intents`:
`{"intents": ..., "source": ..., "tick": ...}`. -/
structure Batch where
  intents : List Intent
  source : Option String
  tick : Option ℤ
deriving DecidableEq

/-- The `LabelCenter` state: the pending intent queue, the committed field
(coord → label → amount) and the memoised grid summary.  The `events` list
is initialised empty and never touched by these operations, so it is
omitted. -/
structure LabelCenter where
  intent_queue : List Batch
  field : List (Coord × List (String × ℚ))
  _grid_summary_cache : Option (List (Coord × List (String × ℚ)))
deriving DecidableEq

namespace LabelCenter

/-- `LabelCenter()`. -/
def init : LabelCenter := ⟨[], [], none⟩

/-- `LabelCenter.enqueue_intents(intents, source, tick)`: a falsy (empty)
intent list returns at once; otherwise the batch is appended to the queue.
No field mutation happens. -/
def enqueue_intents (lc : LabelCenter) (intents : List Intent)
    (source : Option String) (tick : Option ℤ) : LabelCenter :=
  if intents.isEmpty then lc
  else { lc with intent_queue := lc.intent_queue ++ [⟨intents, source, tick⟩] }

/-- `LabelCenter._apply_intent(intent)`: an `emit_label` intent adds its
amount (payload default 1.0) at `(coord, label)`, via `setdefault`; a
payload missing `coord` or `label` raises `KeyError`; other intent names
are ignored. -/
def _apply_intent (lc : LabelCenter) (i : Intent) :
    Except String LabelCenter :=
  if i.name = "emit_label" then
    match i.coord, i.label with
    | some coord, some label =>
      let amount := i.amount.getD 1
      let bucket := (lookupA lc.field coord).getD []
      Except.ok
        { lc with
          field :=
            setA lc.field coord
              (setA bucket label ((lookupA bucket label).getD 0 + amount)) }
    | _, _ => Except.error "KeyError: payload missing coord or label"
  else Except.ok lc

/-- Pure field effect of `_apply_intent` on a conforming intent (the
`Except.ok` branch of `_apply_intent`, used to state tick-atomicity). -/
def applyEmit (field : List (Coord × List (String × ℚ))) (i : Intent) :
    List (Coord × List (String × ℚ)) :=
  if i.name = "emit_label" then
    match i.coord, i.label with
    | some coord, some label =>
      let amount := i.amount.getD 1
      let bucket := (lookupA field coord).getD []
      setA field coord
        (setA bucket label ((lookupA bucket label).getD 0 + amount))
    | _, _ => field
  else field

/-- `LabelCenter.apply_tick(tick)`: apply every queued batch in order, then
clear the queue and invalidate the summary cache.  The `tick` argument is
accepted and ignored, as in the source. -/
def apply_tick (lc : LabelCenter) (_tick : Option ℤ) :
    Except String LabelCenter :=
  (lc.intent_queue.foldlM
      (fun (acc : LabelCenter) (b : Batch) =>
        b.intents.foldlM _apply_intent acc) lc).map
    (fun lc2 => { lc2 with intent_queue := [], _grid_summary_cache := none })

/-- `LabelCenter.get_grid_summary()`: return the cache when present, else
materialise the summary from the committed field and cache it.  The
per-coordinate constant wrapper dict (the "labels" key) is elided. -/
def get_grid_summary (lc : LabelCenter) :
    List (Coord × List (String × ℚ)) × LabelCenter :=
  match lc._grid_summary_cache with
  | some s => (s, lc)
  | none => (lc.field, { lc with _grid_summary_cache := some lc.field })

/-- An intent a producer may legally submit under the boundary contract of
the spec: an `emit_label` intent carries a coord and a label. -/
abbrev Conform (i : Intent) : Prop :=
  i.name = "emit_label" → (i.coord.isSome ∧ i.label.isSome)

/-- Pure field effect of applying a list of queued batches in order. -/
def applyBatches (field : List (Coord × List (String × ℚ)))
    (batches : List Batch) : List (Coord × List (String × ℚ)) :=
  batches.foldl (fun f b => b.intents.foldl applyEmit f) field

end LabelCenter

/-!  Concrete states used by the witnesses below. -/

/-- A free (unowned) entry: value 10 settled at tick 0. -/
def sampleFree : Entry := ⟨10, 0, none, none⟩

/-- An entry owned by claimant A. -/
def sampleOwned : Entry := ⟨4, 0, some "A", none⟩

/-- A free entry still cooling down until tick 5. -/
def sampleCooling : Entry := ⟨6, 0, none, some 5⟩

/-- A sample store at tick 1 with decay rate 1/2, cooldown 2 and prune
threshold 3; coordinate (1, 1) holds an entry whose decayed value is below
the threshold. -/
def sampleStore : LabelCenterBase :=
  { decay_rate := 1 / 2
    claim_cooldown := 2
    prune_threshold := 3
    current_tick := 1
    label_field :=
      [((0, 0), [("antigen", sampleFree), ("pmhc", sampleOwned),
                 ("il12", sampleCooling)]),
       ((1, 1), [("danger", ⟨2, 0, none, none⟩)])] }

/-!  Association-list lemmas. -/

theorem lookupA_setA_self {α β : Type} [DecidableEq α]
    (L : List (α × β)) (k : α) (v : β) : lookupA (setA L k v) k = some v := by
  induction L with
  | nil => simp [setA, lookupA]
  | cons p t ih =>
    obtain ⟨k', v'⟩ := p
    by_cases h : k' = k
    · simp [setA, h, lookupA]
    · simp [setA, h, lookupA, ih]

theorem lookupA_mem {α β : Type} [DecidableEq α]
    {L : List (α × β)} {k : α} {v : β} (h : lookupA L k = some v) :
    (k, v) ∈ L := by
  induction L with
  | nil => simp [lookupA] at h
  | cons p t ih =>
    obtain ⟨k', v'⟩ := p
    by_cases hk : k' = k
    · subst hk
      simp [lookupA] at h
      simp [h]
    · simp [lookupA, hk] at h
      exact List.mem_cons_of_mem _ (ih h)

theorem lookupA_eq_none_of_forall_ne {α β : Type} [DecidableEq α]
    {L : List (α × β)} {k : α} (h : ∀ p ∈ L, p.1 ≠ k) :
    lookupA L k = none := by
  induction L with
  | nil => rfl
  | cons p t ih =>
    obtain ⟨k', v'⟩ := p
    have hk : k' ≠ k := h (k', v') (List.mem_cons_self _ _)
    simp [lookupA, hk]
    exact ih (fun q hq => h q (List.mem_cons_of_mem _ hq))

theorem mem_setA {α β : Type} [DecidableEq α]
    {L : List (α × β)} {k : α} {v : β} {q : α × β} (h : q ∈ setA L k v) :
    q = (k, v) ∨ q ∈ L := by
  induction L with
  | nil => simp [setA] at h; simp [h]
  | cons p t ih =>
    obtain ⟨k', v'⟩ := p
    by_cases hk : k' = k
    · subst hk
      simp [setA] at h
      rcases h with h | h
      · exact Or.inl (by simp [h])
      · exact Or.inr (List.mem_cons_of_mem _ h)
    · simp [setA, hk] at h
      rcases h with h | h
      · exact Or.inr (by simp [h])
      · rcases ih h with h' | h'
        · exact Or.inl h'
        · exact Or.inr (List.mem_cons_of_mem _ h')

/-!  Lemmas describing `prune` through lookups. -/

theorem pruneBucket_keys (st : LabelCenterBase) {B : List (String × Entry)}
    {p : String × Entry} (h : p ∈ LabelCenterBase.pruneBucket st B) :
    p.1 ∈ B.map Prod.fst := by
  unfold LabelCenterBase.pruneBucket at h
  rcases List.mem_filterMap.mp h with ⟨q, hq, hmap⟩
  cases hpe : LabelCenterBase.pruneEntry st q.2 with
  | none => rw [hpe] at hmap; simp at hmap
  | some e =>
    rw [hpe] at hmap
    have hp : (q.1, e) = p := by simpa using hmap
    rw [← hp]
    simpa using List.mem_map_of_mem Prod.fst hq

theorem lookupA_pruneBucket (st : LabelCenterBase) {B : List (String × Entry)}
    (hnd : (B.map Prod.fst).Nodup) (l : String) :
    lookupA (LabelCenterBase.pruneBucket st B) l
      = (lookupA B l).bind (LabelCenterBase.pruneEntry st) := by
  induction B with
  | nil => simp [LabelCenterBase.pruneBucket, lookupA]
  | cons p t ih =>
    obtain ⟨k, e⟩ := p
    simp only [List.map_cons, List.nodup_cons] at hnd
    obtain ⟨hknot, hndt⟩ := hnd
    by_cases hk : k = l
    · subst hk
      cases hpe : LabelCenterBase.pruneEntry st e with
      | some e' =>
        simp [LabelCenterBase.pruneBucket, List.filterMap_cons, hpe, lookupA]
      | none =>
        have hnone : lookupA (LabelCenterBase.pruneBucket st t) k = none := by
          apply lookupA_eq_none_of_forall_ne
          intro q hq hq1
          exact hknot (hq1 ▸ pruneBucket_keys st hq)
        simp [LabelCenterBase.pruneBucket, List.filterMap_cons, hpe,
          lookupA] at hnone ⊢
        simp [hnone]
    · cases hpe : LabelCenterBase.pruneEntry st e with
      | some e' =>
        simpa [LabelCenterBase.pruneBucket, List.filterMap_cons, hpe, lookupA,
          hk] using ih hndt
      | none =>
        simpa [LabelCenterBase.pruneBucket, List.filterMap_cons, hpe, lookupA,
          hk] using ih hndt

theorem pruneField_keys (st : LabelCenterBase)
    {F : List (Coord × List (String × Entry))} {p : Coord × List (String × Entry)}
    (h : p ∈ (F.map
        (fun q => (q.1, LabelCenterBase.pruneBucket st q.2))).filter
          (fun q => !q.2.isEmpty)) :
    p.1 ∈ F.map Prod.fst := by
  rcases List.mem_map.mp (List.mem_of_mem_filter h) with ⟨q, hq, hmap⟩
  rw [← hmap]
  simpa using List.mem_map_of_mem Prod.fst hq

theorem lookupA_pruneField (st : LabelCenterBase)
    {F : List (Coord × List (String × Entry))}
    (hnd : (F.map Prod.fst).Nodup) (c : Coord) :
    lookupA ((F.map
        (fun p => (p.1, LabelCenterBase.pruneBucket st p.2))).filter
          (fun p => !p.2.isEmpty)) c
      = (lookupA F c).bind
          (fun B =>
            if LabelCenterBase.pruneBucket st B = [] then none
            else some (LabelCenterBase.pruneBucket st B)) := by
  induction F with
  | nil => simp [lookupA]
  | cons p t ih =>
    obtain ⟨k, B⟩ := p
    simp only [List.map_cons, List.nodup_cons] at hnd
    obtain ⟨hknot, hndt⟩ := hnd
    by_cases hk : k = c
    · subst hk
      by_cases hB : LabelCenterBase.pruneBucket st B = []
      · have hnone : lookupA ((t.map
            (fun p => (p.1, LabelCenterBase.pruneBucket st p.2))).filter
              (fun p => !p.2.isEmpty)) k = none := by
          apply lookupA_eq_none_of_forall_ne
          intro q hq hq1
          exact hknot (hq1 ▸ pruneField_keys st hq)
        simp [List.filter_cons, hB, lookupA, hnone]
      · simp [List.filter_cons, hB, lookupA]
    · by_cases hB : LabelCenterBase.pruneBucket st B = []
      · simpa [List.filter_cons, hB, lookupA, hk] using ih hndt
      · simpa [List.filter_cons, hB, lookupA, hk] using ih hndt

theorem lookupField_prune (st : LabelCenterBase) (hwf : st.WF)
    (c : Coord) (l : String) :
    st.prune.lookupField c l
      = (st.lookupField c l).bind (LabelCenterBase.pruneEntry st) := by
  unfold LabelCenterBase.prune LabelCenterBase.lookupField
  simp only
  rw [lookupA_pruneField st hwf.1 c]
  cases hB : lookupA st.label_field c with
  | none => simp
  | some B =>
    have hndB : (B.map Prod.fst).Nodup := hwf.2 (c, B) (lookupA_mem hB)
    by_cases hE : LabelCenterBase.pruneBucket st B = []
    · cases hl : lookupA B l with
      | none => simp [hE, hl]
      | some e =>
        cases hpe : LabelCenterBase.pruneEntry st e with
        | none => simp [hE, hl, hpe]
        | some e' =>
          exfalso
          have hmem : (l, e') ∈ LabelCenterBase.pruneBucket st B :=
            List.mem_filterMap.mpr ⟨(l, e), lookupA_mem hl, by simp [hpe]⟩
          rw [hE] at hmem
          simp at hmem
    · simp [hE, lookupA_pruneBucket st hndB l]

/-!  Behaviour of claim, release and update through lookups. -/

theorem lookupField_updateField (st : LabelCenterBase) (c : Coord)
    (l : String) (e : Entry) :
    (st.updateField c l e).lookupField c l = some e := by
  unfold LabelCenterBase.updateField LabelCenterBase.lookupField
  simp [lookupA_setA_self]

theorem claim_label_of_owned {st : LabelCenterBase} {c : Coord} {l : String}
    {entry : Entry} (b : String) (hx : st.lookupField c l = some entry)
    (ho : entry.owned_by.isSome) : st.claim_label c l b = .ok (false, st) := by
  unfold LabelCenterBase.claim_label
  rw [hx]
  simp [ho]

theorem claim_label_of_cooling {st : LabelCenterBase} {c : Coord} {l : String}
    {entry : Entry} {cu : ℤ} (b : String) (hx : st.lookupField c l = some entry)
    (ho : entry.owned_by = none) (hcu : entry.cooldown_until = some cu)
    (hlt : st.current_tick < cu) : st.claim_label c l b = .ok (false, st) := by
  unfold LabelCenterBase.claim_label
  rw [hx]
  simp [ho, hcu, hlt]

theorem claim_label_success {st : LabelCenterBase} {c : Coord} {l : String}
    {entry : Entry} (b : String) (hx : st.lookupField c l = some entry)
    (ho : entry.owned_by = none)
    (hcu : ∀ cu, entry.cooldown_until = some cu → ¬ st.current_tick < cu) :
    st.claim_label c l b
      = .ok (true, st.updateField c l { entry with owned_by := some b }) := by
  unfold LabelCenterBase.claim_label
  rw [hx]
  cases hc : entry.cooldown_until with
  | none => simp [ho, hc]
  | some cu => simp [ho, hc, hcu cu hc]

theorem release_label_success {st : LabelCenterBase} {c : Coord} {l : String}
    {entry : Entry} {b : String} (hx : st.lookupField c l = some entry)
    (ho : entry.owned_by = some b) :
    st.release_label c l b
      = .ok (st.updateField c l
          { entry with
            owned_by := none
            cooldown_until := some (st.current_tick + st.claim_cooldown) }) := by
  unfold LabelCenterBase.release_label
  rw [hx]
  simp [ho]

/-!  The public operations never move the clock backwards and never touch
the configuration fields. -/

theorem _consume_intent_current_tick (st : LabelCenterBase) (i : Intent) :
    (st._consume_intent i).current_tick = st.current_tick := by
  obtain ⟨nm, co, la, am⟩ := i
  unfold LabelCenterBase._consume_intent
  by_cases hn : nm = "emit_label"
  · cases co with
    | none => simp [hn]
    | some c =>
      cases la with
      | none => simp [hn]
      | some l =>
        simp only [hn, if_true]
        cases hE : lookupA ((lookupA st.label_field c).getD []) l with
        | none => rfl
        | some entry =>
          by_cases ho : entry.owned_by.isSome <;>
            simp [ho, hE, LabelCenterBase.updateField]
  · simp [hn]

theorem consume_intents_current_tick (st : LabelCenterBase)
    (intents : List Intent) :
    (st.consume_intents intents).current_tick = st.current_tick := by
  unfold LabelCenterBase.consume_intents
  induction intents generalizing st with
  | nil => rfl
  | cons i t ih => rw [List.foldl_cons, ih, _consume_intent_current_tick]

theorem claim_label_of_missing {st : LabelCenterBase} {c : Coord} {l : String}
    (b : String) (hx : st.lookupField c l = none) :
    st.claim_label c l b = .error "KeyError: label not found" := by
  unfold LabelCenterBase.claim_label
  rw [hx]

theorem release_label_of_missing {st : LabelCenterBase} {c : Coord}
    {l : String} (b : String) (hx : st.lookupField c l = none) :
    st.release_label c l b = .error "KeyError: Label not found" := by
  unfold LabelCenterBase.release_label
  rw [hx]

theorem release_label_not_owner {st : LabelCenterBase} {c : Coord}
    {l : String} {entry : Entry} (b : String)
    (hx : st.lookupField c l = some entry)
    (ho : entry.owned_by ≠ some b) :
    st.release_label c l b = .error "ValueError: not owned by caller" := by
  unfold LabelCenterBase.release_label
  rw [hx]
  simp [ho]

/-!  Non-negativity is preserved by every operation when emitted amounts
are non-negative. -/

theorem _decay_nonneg (st : LabelCenterBase) {v : ℚ} (hv : 0 ≤ v)
    (lt : ℤ) : 0 ≤ st._decay v lt := by
  unfold LabelCenterBase._decay
  by_cases h1 : st.current_tick - lt ≤ 0
  · simpa [h1] using hv
  · by_cases h2 : st.decay_rate ≤ 0
    · simpa [h1, h2] using hv
    · have h2' : 0 < st.decay_rate := not_le.mp h2
      have hm : 0 ≤ v * st.decay_rate ^ (st.current_tick - lt).toNat :=
        mul_nonneg hv (pow_nonneg (le_of_lt h2') _)
      simpa [h1, h2] using hm

theorem nonneg_of_lookupField {st : LabelCenterBase} {c : Coord} {l : String}
    {entry : Entry} (hst : st.Nonneg) (hx : st.lookupField c l = some entry) :
    0 ≤ entry.value := by
  unfold LabelCenterBase.lookupField at hx
  cases hb : lookupA st.label_field c with
  | none => rw [hb] at hx; simp at hx
  | some B =>
    rw [hb] at hx
    simp only [Option.some_bind] at hx
    exact hst (c, B) (lookupA_mem hb) (l, entry) (lookupA_mem hx)

theorem nonneg_updateField {st : LabelCenterBase} {c : Coord} {l : String}
    {e : Entry} (hst : st.Nonneg) (he : 0 ≤ e.value) :
    (st.updateField c l e).Nonneg := by
  intro p hp q hq
  rcases mem_setA hp with hp1 | hp1
  · rw [hp1] at hq
    rcases mem_setA hq with hq1 | hq1
    · rw [hq1]; exact he
    · cases hb : lookupA st.label_field c with
      | none => rw [hb] at hq1; simp at hq1
      | some B =>
        rw [hb] at hq1
        exact hst (c, B) (lookupA_mem hb) q hq1
  · exact hst p hp1 q hq

theorem nonneg_consume_intent {st : LabelCenterBase} {i : Intent}
    (hst : st.Nonneg) (hi : 0 ≤ i.amount.getD 0) :
    (st._consume_intent i).Nonneg := by
  obtain ⟨nm, co, la, am⟩ := i
  unfold LabelCenterBase._consume_intent
  by_cases hn : nm = "emit_label"
  · cases co with
    | none => simpa [hn] using hst
    | some c =>
      cases la with
      | none => simpa [hn] using hst
      | some l =>
        simp only [hn, if_true]
        cases hE : lookupA ((lookupA st.label_field c).getD []) l with
        | none => exact nonneg_updateField hst hi
        | some entry =>
          have hev : 0 ≤ entry.value := by
            cases hb : lookupA st.label_field c with
            | none => rw [hb] at hE; simp [lookupA] at hE
            | some B =>
              rw [hb] at hE
              exact hst (c, B) (lookupA_mem hb) (l, entry) (lookupA_mem hE)
          by_cases ho : entry.owned_by.isSome
          · simpa [ho] using hst
          · have hres := @nonneg_updateField st c l
              { entry with
                value := st._decay entry.value entry.last_tick + am.getD 0
                last_tick := st.current_tick } hst
              (add_nonneg (_decay_nonneg st hev entry.last_tick) hi)
            simpa [ho] using hres
  · simpa [hn] using hst

theorem nonneg_consume_intents {st : LabelCenterBase} {intents : List Intent}
    (hst : st.Nonneg) (hi : ∀ i ∈ intents, 0 ≤ (Intent.amount i).getD 0) :
    (st.consume_intents intents).Nonneg := by
  unfold LabelCenterBase.consume_intents
  induction intents generalizing st with
  | nil => exact hst
  | cons i t ih =>
    rw [List.foldl_cons]
    exact ih (nonneg_consume_intent hst (hi i (List.mem_cons_self _ _)))
      (fun j hj => hi j (List.mem_cons_of_mem _ hj))

theorem nonneg_pruneEntry {st : LabelCenterBase} {e e' : Entry}
    (he : 0 ≤ e.value) (h : LabelCenterBase.pruneEntry st e = some e') :
    0 ≤ e'.value := by
  unfold LabelCenterBase.pruneEntry at h
  by_cases ho : e.owned_by.isSome
  · rw [if_pos ho] at h
    rw [← Option.some.inj h]
    exact he
  · rw [if_neg ho] at h
    by_cases hd : st._decay e.value e.last_tick < st.prune_threshold
    · simp [hd] at h
    · simp only [hd, if_false, if_neg hd] at h
      rw [← Option.some.inj h]
      exact _decay_nonneg st he e.last_tick

theorem nonneg_prune {st : LabelCenterBase} (hst : st.Nonneg) :
    st.prune.Nonneg := by
  intro p hp q hq
  unfold LabelCenterBase.prune at hp
  rcases List.mem_map.mp (List.mem_of_mem_filter hp) with ⟨r, hr, hmap⟩
  rw [← hmap] at hq
  rcases List.mem_filterMap.mp hq with ⟨s, hs, hsmap⟩
  cases hpe : LabelCenterBase.pruneEntry st s.2 with
  | none => rw [hpe] at hsmap; simp at hsmap
  | some e' =>
    rw [hpe] at hsmap
    have hq2 : (s.1, e') = q := by simpa using hsmap
    rw [← hq2]
    exact nonneg_pruneEntry (hst r hr s hs) hpe

theorem nonneg_applyOp {st : LabelCenterBase} {op : Op} (hst : st.Nonneg)
    (hop : op.amountsNonneg) : (applyOp st op).Nonneg := by
  cases op with
  | consume intents => exact nonneg_consume_intents hst hop
  | advance t =>
    simp only [applyOp]
    unfold LabelCenterBase.advance_tick
    by_cases ht : t < st.current_tick
    · simpa [ht] using hst
    · simpa [ht] using hst
  | step s => exact hst
  | claim c l b =>
    simp only [applyOp]
    cases hx : st.lookupField c l with
    | none => rw [claim_label_of_missing b hx]; exact hst
    | some entry =>
      by_cases ho : entry.owned_by.isSome
      · rw [claim_label_of_owned b hx ho]; exact hst
      · rw [Option.not_isSome_iff_eq_none] at ho
        cases hc : entry.cooldown_until with
        | none =>
          rw [claim_label_success b hx ho
            (fun cu h' => by rw [hc] at h'; exact absurd h' (by simp))]
          have hval : 0 ≤ entry.value := nonneg_of_lookupField hst hx
          exact @nonneg_updateField st c l { entry with owned_by := some b }
            hst hval
        | some cu =>
          by_cases hlt : st.current_tick < cu
          · rw [claim_label_of_cooling b hx ho hc hlt]; exact hst
          · rw [claim_label_success b hx ho
              (fun cu' h' => by rw [hc] at h'; exact Option.some.inj h' ▸ hlt)]
            have hval : 0 ≤ entry.value := nonneg_of_lookupField hst hx
            exact @nonneg_updateField st c l { entry with owned_by := some b }
              hst hval
  | release c l b =>
    simp only [applyOp]
    cases hx : st.lookupField c l with
    | none => rw [release_label_of_missing b hx]; exact hst
    | some entry =>
      by_cases ho : entry.owned_by = some b
      · rw [release_label_success hx ho]
        have hval : 0 ≤ entry.value := nonneg_of_lookupField hst hx
        exact @nonneg_updateField st c l
          { entry with
            owned_by := none
            cooldown_until := some (st.current_tick + st.claim_cooldown) }
          hst hval
      · rw [release_label_not_owner b hx ho]; exact hst
  | prune => exact nonneg_prune hst

/-!  Read-path case lemmas. -/

theorem get_label_of_missing (st : LabelCenterBase) {c : Coord} {l : String}
    (hx : st.lookupField c l = none) : st.get_label c l = 0 := by
  unfold LabelCenterBase.get_label
  rw [hx]

theorem get_label_owned (st : LabelCenterBase) {c : Coord} {l : String}
    {entry : Entry} (hx : st.lookupField c l = some entry)
    (ho : entry.owned_by.isSome) : st.get_label c l = entry.value := by
  unfold LabelCenterBase.get_label
  rw [hx]
  simp [ho]

theorem get_label_unowned (st : LabelCenterBase) {c : Coord} {l : String}
    {entry : Entry} (hx : st.lookupField c l = some entry)
    (ho : entry.owned_by = none) :
    st.get_label c l =
      if st._decay entry.value entry.last_tick < st.prune_threshold then 0
      else st._decay entry.value entry.last_tick := by
  unfold LabelCenterBase.get_label
  rw [hx]
  simp [ho]

theorem advance_tick_label_field (st : LabelCenterBase) (t : ℤ) :
    (st.advance_tick t).label_field = st.label_field := by
  unfold LabelCenterBase.advance_tick
  split <;> rfl

/-!  Tick-atomic apply for the LabelCenter intent queue. -/

theorem _apply_intent_conform (lc : LabelCenter) {i : Intent}
    (hi : LabelCenter.Conform i) :
    lc._apply_intent i
      = .ok { lc with field := LabelCenter.applyEmit lc.field i } := by
  obtain ⟨nm, co, la, am⟩ := i
  unfold LabelCenter._apply_intent LabelCenter.applyEmit
  by_cases hn : nm = "emit_label"
  · obtain ⟨hc, hl⟩ := hi hn
    cases co with
    | none => simp at hc
    | some c =>
      cases la with
      | none => simp at hl
      | some l => simp [hn]
  · simp [hn]

theorem foldlM_apply_intents {intents : List Intent} (lc : LabelCenter)
    (h : ∀ i ∈ intents, LabelCenter.Conform i) :
    intents.foldlM LabelCenter._apply_intent lc
      = .ok { lc with
          field := intents.foldl LabelCenter.applyEmit lc.field } := by
  induction intents generalizing lc with
  | nil => rfl
  | cons i t ih =>
    rw [List.foldlM_cons, _apply_intent_conform lc (h i (List.mem_cons_self _ _))]
    rw [List.foldl_cons]
    exact ih _ (fun j hj => h j (List.mem_cons_of_mem _ hj))

theorem foldlM_apply_batches {batches : List Batch} (lc : LabelCenter)
    (h : ∀ b ∈ batches, ∀ i ∈ b.intents, LabelCenter.Conform i) :
    batches.foldlM
        (fun (acc : LabelCenter) (b : Batch) =>
          b.intents.foldlM LabelCenter._apply_intent acc) lc
      = .ok { lc with
          field := LabelCenter.applyBatches lc.field batches } := by
  induction batches generalizing lc with
  | nil => rfl
  | cons b t ih =>
    rw [List.foldlM_cons,
      foldlM_apply_intents lc (h b (List.mem_cons_self _ _))]
    unfold LabelCenter.applyBatches
    rw [List.foldl_cons]
    exact ih _ (fun b' hb' => h b' (List.mem_cons_of_mem _ hb'))

theorem apply_tick_ok (lc : LabelCenter) (t : Option ℤ)
    (h : ∀ b ∈ lc.intent_queue, ∀ i ∈ b.intents, LabelCenter.Conform i) :
    lc.apply_tick t
      = .ok ⟨[], LabelCenter.applyBatches lc.field lc.intent_queue, none⟩ := by
  unfold LabelCenter.apply_tick
  rw [foldlM_apply_batches lc h]
  rfl

/-!  Claim theorems. -/

/-- C1 (amended): claim on the field store raises KeyError when the
(coordinate, label) entry does not exist; in every other case it never
throws: it returns false when the entry is already owned, and when the
entry is unowned but has cooldown_until set with current_tick <
cooldown_until; otherwise it sets owned_by to the claimant and returns
true. -/
theorem claim_label_spec (st : LabelCenterBase) (c : Coord)
    (l claimant : String) :
    (st.lookupField c l = none →
      st.claim_label c l claimant = .error "KeyError: label not found") ∧
    (∀ entry, st.lookupField c l = some entry →
      (entry.owned_by.isSome →
        st.claim_label c l claimant = .ok (false, st)) ∧
      (∀ cu, entry.owned_by = none → entry.cooldown_until = some cu →
        st.current_tick < cu →
        st.claim_label c l claimant = .ok (false, st)) ∧
      (entry.owned_by = none →
        (∀ cu, entry.cooldown_until = some cu → ¬ st.current_tick < cu) →
        st.claim_label c l claimant
          = .ok (true,
              st.updateField c l { entry with owned_by := some claimant }) ∧
        (st.updateField c l
            { entry with owned_by := some claimant }).lookupField c l
          = some { entry with owned_by := some claimant })) := by
  refine ⟨fun hx => claim_label_of_missing claimant hx,
    fun entry hx => ⟨?_, ?_, ?_⟩⟩
  · exact fun ho => claim_label_of_owned claimant hx ho
  · exact fun cu ho hcu hlt => claim_label_of_cooling claimant hx ho hcu hlt
  · exact fun ho hcu =>
      ⟨claim_label_success claimant hx ho hcu, lookupField_updateField ..⟩

/-- C1 witness: on the sample store, claiming the owned entry and the
cooling entry return false, and claiming the free entry succeeds. -/
theorem claim_label_spec_witness :
    sampleStore.claim_label (0, 0) "pmhc" "B" = .ok (false, sampleStore) ∧
    sampleStore.claim_label (0, 0) "il12" "B" = .ok (false, sampleStore) ∧
    sampleStore.claim_label (0, 0) "antigen" "B"
      = .ok (true, sampleStore.updateField (0, 0) "antigen"
          { sampleFree with owned_by := some "B" }) := by
  refine ⟨?_, ?_, ?_⟩
  · exact ((claim_label_spec sampleStore (0, 0) "pmhc" "B").2 sampleOwned
      (by decide)).1 (by decide)
  · exact ((claim_label_spec sampleStore (0, 0) "il12" "B").2 sampleCooling
      (by decide)).2.1 5 (by decide) (by decide) (by decide)
  · exact (((claim_label_spec sampleStore (0, 0) "antigen" "B").2 sampleFree
      (by decide)).2.2 (by decide)
      (fun cu h => absurd h (by simp [sampleFree]))).1

/-- C1 counterexample: on a freshly constructed store with no entries,
claim raises KeyError (modelled as Except.error) instead of returning
false, refuting the never-throws reading of the claim. -/
theorem claim_label_missing_raises_cex :
    (LabelCenterBase.init (9 / 10) 0 0).claim_label (0, 0) "antigen" "A"
      = .error "KeyError: label not found" := by rfl

/-- C2: an owned entry is frozen until release: read returns the stored
value unchanged at every clock value (advance_tick and tick never touch
the field), every emit intent targeting the entry leaves the store
entirely unchanged, and prune keeps the entry verbatim. -/
theorem owned_entry_frozen (st : LabelCenterBase) (c : Coord) (l : String)
    (entry : Entry) (o : String) (hx : st.lookupField c l = some entry)
    (ho : entry.owned_by = some o) :
    (∀ t : ℤ,
      ({ st with current_tick := t } : LabelCenterBase).get_label c l
        = entry.value) ∧
    (∀ u : ℤ, (st.advance_tick u).label_field = st.label_field ∧
      (st.tick u).label_field = st.label_field) ∧
    (∀ i : Intent, i.coord = some c → i.label = some l →
      st._consume_intent i = st) ∧
    (st.WF → st.prune.lookupField c l = some entry) := by
  have hsome : entry.owned_by.isSome := by rw [ho]; rfl
  refine ⟨?_, ?_, ?_, ?_⟩
  · intro t
    exact get_label_owned { st with current_tick := t } hx hsome
  · intro u
    exact ⟨advance_tick_label_field st u, rfl⟩
  · intro i hc hl
    unfold LabelCenterBase._consume_intent
    by_cases hn : i.name = "emit_label"
    · unfold LabelCenterBase.lookupField at hx
      cases hb : lookupA st.label_field c with
      | none => rw [hb] at hx; simp at hx
      | some B =>
        rw [hb] at hx
        simp only [Option.some_bind] at hx
        simp [hn, hc, hl, hb, hx, hsome]
    · simp [hn]
  · intro hwf
    rw [lookupField_prune st hwf c l, hx]
    unfold LabelCenterBase.pruneEntry
    simp [hsome]

/-- C2 witness: the owned sample entry reads as its stored value at a
distant tick, ignores a targeted emit, and survives prune unchanged. -/
theorem owned_entry_frozen_witness :
    (({ sampleStore with current_tick := 100 }
        : LabelCenterBase).get_label (0, 0) "pmhc" = 4) ∧
    (sampleStore._consume_intent
        ⟨"emit_label", some (0, 0), some "pmhc", some 7⟩ = sampleStore) ∧
    sampleStore.prune.lookupField (0, 0) "pmhc" = some sampleOwned := by
  have h := owned_entry_frozen sampleStore (0, 0) "pmhc" sampleOwned "A"
    (by decide) (by decide)
  exact ⟨h.1 100, h.2.2.1 ⟨"emit_label", some (0, 0), some "pmhc", some 7⟩
    rfl rfl, h.2.2.2 (by decide)⟩

/-- C3: releasing an owned entry at tick T sets owned_by to none and
cooldown_until to T + claim_cooldown; afterwards every claim attempt by
any claimant at any tick in [T, T + c) returns false, while a claim at
tick T + c is no longer blocked by the cooldown and succeeds. -/
theorem release_cooldown_spec (st : LabelCenterBase) (c : Coord)
    (l owner claimant : String) (entry : Entry) (t : ℤ)
    (hx : st.lookupField c l = some entry)
    (ho : entry.owned_by = some owner) :
    ∃ st', st.release_label c l owner = .ok st' ∧
      st'.lookupField c l = some
        { entry with
          owned_by := none
          cooldown_until := some (st.current_tick + st.claim_cooldown) } ∧
      (st.current_tick ≤ t → t < st.current_tick + st.claim_cooldown →
        ({ st' with current_tick := t } : LabelCenterBase).claim_label c l
            claimant
          = .ok (false, { st' with current_tick := t })) ∧
      (∃ st'',
        ({ st' with
            current_tick := st.current_tick + st.claim_cooldown }
          : LabelCenterBase).claim_label c l claimant = .ok (true, st'')) := by
  refine ⟨_, release_label_success hx ho, lookupField_updateField .., ?_, ?_⟩
  · intro h1 h2
    exact claim_label_of_cooling claimant
      (lookupField_updateField st c l _) rfl rfl h2
  · exact ⟨_, claim_label_success claimant
      (lookupField_updateField st c l _) rfl
      (fun cu h => by rw [← Option.some.inj h]; exact lt_irrefl _)⟩

/-- C3 witness: releasing the owned sample entry at tick 1 with cooldown 2
blocks claims at ticks 1 and 2 and admits the claim at tick 3. -/
theorem release_cooldown_spec_witness :
    ∃ st', sampleStore.release_label (0, 0) "pmhc" "A" = .ok st' ∧
      st'.lookupField (0, 0) "pmhc"
        = some { sampleOwned with owned_by := none, cooldown_until := some 3 } ∧
      ({ st' with current_tick := 2 } : LabelCenterBase).claim_label (0, 0)
          "pmhc" "B" = .ok (false, { st' with current_tick := 2 }) ∧
      (∃ st'', ({ st' with current_tick := 3 } : LabelCenterBase).claim_label
          (0, 0) "pmhc" "B" = .ok (true, st'')) := by
  obtain ⟨st', h1, h2, h3, h4⟩ := release_cooldown_spec sampleStore (0, 0)
    "pmhc" "A" "B" sampleOwned 2 (by decide) (by decide)
  exact ⟨st', h1, h2, h3 (by decide) (by decide), h4⟩

/-- C4 (amended): the decay functions against the reference definition.
For Decayer._decay_mass: elapsed ≤ 0 returns the mass unchanged; for
elapsed > 0 the half-life is first clamped up to min_half_life — so
half_life ≤ 0 decays with min_half_life instead of returning the value
unchanged — and the result is mass * 0.5 ^ (elapsed / clamped half-life);
for half_life ≥ min_half_life the reference equation holds, and
decay(mass, n * half_life, half_life) = mass * 0.5 ^ n for every n ≥ 0.
The field store decay LabelCenterBase._decay uses the per-store base
decay_rate instead: it returns value for elapsed ≤ 0 or decay_rate ≤ 0
and value * decay_rate ^ elapsed otherwise. -/
theorem decay_reference_spec :
    (∀ min_half_life mass dt half_life : ℝ,
      (dt ≤ 0 → Decayer.decay_mass min_half_life mass dt half_life = mass) ∧
      (0 < dt → min_half_life ≤ half_life →
        Decayer.decay_mass min_half_life mass dt half_life
          = mass * (1 / 2 : ℝ) ^ (dt / half_life)) ∧
      (0 < dt → half_life < min_half_life →
        Decayer.decay_mass min_half_life mass dt half_life
          = mass * (1 / 2 : ℝ) ^ (dt / min_half_life)) ∧
      (∀ n : ℝ, 0 ≤ n → 0 < half_life → min_half_life ≤ half_life →
        Decayer.decay_mass min_half_life mass (n * half_life) half_life
          = mass * (1 / 2 : ℝ) ^ n)) ∧
    (∀ (st : LabelCenterBase) (v : ℚ) (lt : ℤ),
      (st.current_tick - lt ≤ 0 → st._decay v lt = v) ∧
      (st.decay_rate ≤ 0 → st._decay v lt = v) ∧
      (¬ st.current_tick - lt ≤ 0 → ¬ st.decay_rate ≤ 0 →
        st._decay v lt
          = v * st.decay_rate ^ (st.current_tick - lt).toNat)) := by
  constructor
  · intro m mass dt hl
    refine ⟨?_, ?_, ?_, ?_⟩
    · intro h
      unfold Decayer.decay_mass
      rw [if_pos h]
    · intro h1 h2
      unfold Decayer.decay_mass
      rw [if_neg (not_le.mpr h1)]
      simp [not_lt.mpr h2]
    · intro h1 h2
      unfold Decayer.decay_mass
      rw [if_neg (not_le.mpr h1)]
      simp [h2]
    · intro n hn h0 h2
      by_cases hzero : n = 0
      · subst hzero
        rw [zero_mul]
        unfold Decayer.decay_mass
        rw [if_pos le_rfl, Real.rpow_zero, mul_one]
      · have hpos : 0 < n := lt_of_le_of_ne hn (Ne.symm hzero)
        have hdt : 0 < n * hl := mul_pos hpos h0
        unfold Decayer.decay_mass
        rw [if_neg (not_le.mpr hdt)]
        simp only [not_lt.mpr h2, if_false]
        rw [mul_div_cancel_right₀ n (ne_of_gt h0)]
  · intro st v lt_
    refine ⟨?_, ?_, ?_⟩
    · intro h
      unfold LabelCenterBase._decay
      simp [h]
    · intro h
      unfold LabelCenterBase._decay
      by_cases h1 : st.current_tick - lt_ ≤ 0 <;> simp [h1, h]
    · intro h1 h2
      unfold LabelCenterBase._decay
      simp [h1, h2]

/-- C4 witness: two half-lives at half-life 8 quarter the mass, a negative
elapsed time leaves it unchanged, and the store decay at rate 1/2 over one
tick halves the value. -/
theorem decay_reference_spec_witness :
    Decayer.decay_mass (1 / 1000000) 5 (2 * 8) 8 = 5 * (1 / 2 : ℝ) ^ (2 : ℝ) ∧
    Decayer.decay_mass (1 / 1000000) 5 (-1) 8 = 5 ∧
    sampleStore._decay 10 0 = 10 * (1 / 2 : ℚ) ^ 1 := by
  refine ⟨?_, ?_, ?_⟩
  · exact (decay_reference_spec.1 (1 / 1000000) 5 (2 * 8) 8).2.2.2 2
      (by norm_num) (by norm_num) (by norm_num)
  · exact (decay_reference_spec.1 (1 / 1000000) 5 (-1) 8).1 (by norm_num)
  · exact (decay_reference_spec.2 sampleStore 10 0).2.2
      (by norm_num [sampleStore]) (by norm_num [sampleStore])

/-- C4 counterexample: with the default min_half_life of 1e-6, a zero
half-life is clamped and the mass decays (by a factor 0.5 ^ 1000000)
instead of being returned unchanged as the claim states. -/
theorem decay_mass_zero_half_life_cex :
    Decayer.decay_mass (1 / 1000000) 1 1 0 ≠ 1 := by
  unfold Decayer.decay_mass
  rw [if_neg (by norm_num : ¬ (1 : ℝ) ≤ 0)]
  have hc : (0 : ℝ) < 1 / 1000000 := by norm_num
  simp only [hc, if_pos]
  have he : (1 : ℝ) / (1 / 1000000) = ((1000000 : ℕ) : ℝ) := by norm_num
  rw [one_mul, he, Real.rpow_natCast]
  exact ne_of_lt (pow_lt_one₀ (by norm_num) (by norm_num) (by norm_num))

/-- C5 (amended): provided every submitted emit amount is non-negative,
the value of every entry in the field store stays non-negative across any
sequence of store operations (consume, advance_tick, tick, claim, release,
prune) starting from a non-negative state. -/
theorem store_values_nonneg (st : LabelCenterBase) (ops : List Op)
    (h0 : st.Nonneg) (hops : ∀ op ∈ ops, op.amountsNonneg) :
    (ops.foldl applyOp st).Nonneg := by
  induction ops generalizing st with
  | nil => exact h0
  | cons op t ih =>
    rw [List.foldl_cons]
    exact ih _ (nonneg_applyOp h0 (hops op (List.mem_cons_self _ _)))
      (fun o ho => hops o (List.mem_cons_of_mem _ ho))

/-- C5 witness: a concrete run of emits, tick advances, a claim, a release
and a prune keeps every stored value non-negative. -/
theorem store_values_nonneg_witness :
    (([Op.consume [⟨"emit_label", some (0, 0), some "antigen", some 10⟩],
       Op.advance 1,
       Op.claim (0, 0) "antigen" "A",
       Op.release (0, 0) "antigen" "A",
       Op.consume [⟨"emit_label", some (0, 0), some "antigen", some 3⟩],
       Op.prune].foldl applyOp
        (LabelCenterBase.init (1 / 2) 2 (1 / 100))).Nonneg) :=
  store_values_nonneg (LabelCenterBase.init (1 / 2) 2 (1 / 100)) _
    (by decide) (by decide)

/-- C5 counterexample: the store accepts a negative emit amount, leaving an
entry with value -1 after the intent is applied, so the non-negativity
claim fails without the amount precondition. -/
theorem store_negative_value_cex :
    (((LabelCenterBase.init (9 / 10) 0 0).consume_intents
        [⟨"emit_label", some (0, 0), some "antigen", some (-1)⟩]
      ).lookupField (0, 0) "antigen").map Entry.value = some (-1) ∧
    ¬ ((LabelCenterBase.init (9 / 10) 0 0).consume_intents
        [⟨"emit_label", some (0, 0), some "antigen", some (-1)⟩]).Nonneg := by
  constructor
  · rfl
  · intro h
    have := h ((0, 0), [("antigen", ⟨-1, 0, none, none⟩)]) (by decide)
      ("antigen", ⟨-1, 0, none, none⟩) (by decide)
    exact absurd this (by decide)

/-- C6: prune settles every unowned entry (value rewritten to the decayed
value, last_tick to current_tick) and deletes it exactly when the settled
value is below prune_threshold; owned entries are returned verbatim; and
after prune no coordinate maps to an empty label map. -/
theorem prune_spec (st : LabelCenterBase) (hwf : st.WF) :
    (∀ c l entry, st.lookupField c l = some entry →
      (entry.owned_by.isSome → st.prune.lookupField c l = some entry) ∧
      (entry.owned_by = none →
        st.prune.lookupField c l =
          if st._decay entry.value entry.last_tick < st.prune_threshold
          then none
          else some { entry with
            value := st._decay entry.value entry.last_tick
            last_tick := st.current_tick })) ∧
    (∀ p ∈ st.prune.label_field, p.2 ≠ []) := by
  constructor
  · intro c l entry hx
    constructor
    · intro ho
      rw [lookupField_prune st hwf c l, hx]
      simp only [Option.some_bind]
      unfold LabelCenterBase.pruneEntry
      rw [if_pos ho]
    · intro ho
      rw [lookupField_prune st hwf c l, hx]
      simp only [Option.some_bind]
      unfold LabelCenterBase.pruneEntry
      have hno : ¬ entry.owned_by.isSome := by simp [ho]
      by_cases hd : st._decay entry.value entry.last_tick < st.prune_threshold
      · simp [hno, hd]
      · simp [hno, hd]
  · intro p hp
    have hmem := List.of_mem_filter hp
    simpa using hmem

/-- C6 witness: pruning the sample store settles the free entry from 10 at
tick 0 to 5 at tick 1, deletes the below-threshold entry at (1, 1),
removes that now-empty coordinate, and keeps the owned entry verbatim. -/
theorem prune_spec_witness :
    sampleStore.prune.lookupField (0, 0) "antigen"
      = some ⟨5, 1, none, none⟩ ∧
    sampleStore.prune.lookupField (1, 1) "danger" = none ∧
    sampleStore.prune.lookupField (0, 0) "pmhc" = some sampleOwned ∧
    (∀ p ∈ sampleStore.prune.label_field, p.2 ≠ []) := by
  have h := prune_spec sampleStore (by decide)
  refine ⟨?_, ?_, ?_, h.2⟩
  · have h1 := (h.1 (0, 0) "antigen" sampleFree (by decide)).2 (by decide)
    rw [h1]
    norm_num [sampleStore, sampleFree, LabelCenterBase._decay]
  · have h1 := (h.1 (1, 1) "danger" ⟨2, 0, none, none⟩ (by decide)).2 rfl
    rw [h1]
    norm_num [sampleStore, LabelCenterBase._decay]
  · exact (h.1 (0, 0) "pmhc" sampleOwned (by decide)).1 (by decide)

/-- C7 (amended): advance_tick with a tick argument strictly below
current_tick returns the store unchanged (no effect at all), and no store
operation decreases current_tick except tick(step) called with a negative
step: every operation other than a negative-step tick leaves current_tick
greater than or equal to its previous value. -/
theorem tick_monotonicity_spec :
    (∀ (st : LabelCenterBase) (t : ℤ), t < st.current_tick →
      st.advance_tick t = st) ∧
    (∀ (st : LabelCenterBase) (op : Op),
      (∀ s, op = Op.step s → 0 ≤ s) →
      st.current_tick ≤ (applyOp st op).current_tick) := by
  constructor
  · intro st t ht
    unfold LabelCenterBase.advance_tick
    rw [if_pos ht]
  · intro st op hop
    cases op with
    | consume intents =>
      simp only [applyOp]
      rw [consume_intents_current_tick]
    | advance t =>
      simp only [applyOp]
      unfold LabelCenterBase.advance_tick
      by_cases ht : t < st.current_tick
      · rw [if_pos ht]
      · rw [if_neg ht]
        exact le_of_not_lt ht
    | step s =>
      have hs := hop s rfl
      simp only [applyOp]
      unfold LabelCenterBase.tick
      exact le_add_of_nonneg_right hs
    | claim c l b =>
      simp only [applyOp]
      cases hx : st.lookupField c l with
      | none => rw [claim_label_of_missing b hx]
      | some entry =>
        by_cases ho : entry.owned_by.isSome
        · rw [claim_label_of_owned b hx ho]
        · rw [Option.not_isSome_iff_eq_none] at ho
          cases hc : entry.cooldown_until with
          | none =>
            rw [claim_label_success b hx ho
              (fun cu h' => by rw [hc] at h'; exact absurd h' (by simp))]
            exact le_rfl
          | some cu =>
            by_cases hlt : st.current_tick < cu
            · rw [claim_label_of_cooling b hx ho hc hlt]
            · rw [claim_label_success b hx ho
                (fun cu' h' => by
                  rw [hc] at h'
                  exact Option.some.inj h' ▸ hlt)]
              exact le_rfl
    | release c l b =>
      simp only [applyOp]
      cases hx : st.lookupField c l with
      | none => rw [release_label_of_missing b hx]
      | some entry =>
        by_cases ho : entry.owned_by = some b
        · rw [release_label_success hx ho]
          exact le_rfl
        · rw [release_label_not_owner b hx ho]
    | prune => exact le_refl _

/-- C7 witness: advancing the sample store (at tick 1) to tick 0 is a
no-op, and a non-negative tick step does not decrease the clock. -/
theorem tick_monotonicity_spec_witness :
    sampleStore.advance_tick 0 = sampleStore ∧
    sampleStore.current_tick
      ≤ (applyOp sampleStore (Op.step 3)).current_tick := by
  constructor
  · exact tick_monotonicity_spec.1 sampleStore 0 (by decide)
  · exact tick_monotonicity_spec.2 sampleStore (Op.step 3)
      (fun s h => Op.step.inj h ▸ (by decide : (0 : ℤ) ≤ 3))

/-- C7 counterexample: the unguarded tick method accepts a negative step
and moves current_tick backwards, from 0 to -1 on a fresh store. -/
theorem tick_negative_step_cex :
    ((LabelCenterBase.init (9 / 10) 0 0).tick (-1)).current_tick
      < (LabelCenterBase.init (9 / 10) 0 0).current_tick := by decide

/-- C8: read returns 0 when no entry exists; for an unowned entry it
returns the stored value decayed from last_tick to current_tick, except
that it returns 0 whenever the decayed value is below prune_threshold even
though the entry still exists.  In the embedding get_label is a pure
function of the store — mirroring the source, which computes the decayed
value into a local variable and never writes back to the entry — so the
non-mutation part of the claim holds by construction. -/
theorem get_label_read_spec (st : LabelCenterBase) (c : Coord) (l : String) :
    (st.lookupField c l = none → st.get_label c l = 0) ∧
    (∀ entry, st.lookupField c l = some entry → entry.owned_by = none →
      (st._decay entry.value entry.last_tick < st.prune_threshold →
        st.get_label c l = 0) ∧
      (¬ st._decay entry.value entry.last_tick < st.prune_threshold →
        st.get_label c l = st._decay entry.value entry.last_tick)) := by
  refine ⟨get_label_of_missing st, fun entry hx ho => ⟨?_, ?_⟩⟩
  · intro hd
    rw [get_label_unowned st hx ho, if_pos hd]
  · intro hd
    rw [get_label_unowned st hx ho, if_neg hd]

/-- C8 witness: a missing key reads 0; the free sample entry (10 at tick 0,
rate 1/2) reads 5 at tick 1; the entry at (1, 1) reads 0 because its
decayed value 1 is below the threshold 3, although it still exists. -/
theorem get_label_read_spec_witness :
    sampleStore.get_label (2, 2) "nothing" = 0 ∧
    sampleStore.get_label (0, 0) "antigen" = 5 ∧
    sampleStore.get_label (1, 1) "danger" = 0 := by
  refine ⟨?_, ?_, ?_⟩
  · exact (get_label_read_spec sampleStore (2, 2) "nothing").1 (by decide)
  · have h := ((get_label_read_spec sampleStore (0, 0) "antigen").2 sampleFree
      (by decide) (by decide)).2
      (by norm_num [sampleStore, sampleFree, LabelCenterBase._decay])
    rw [h]
    norm_num [sampleStore, sampleFree, LabelCenterBase._decay]
  · exact ((get_label_read_spec sampleStore (1, 1) "danger").2
      ⟨2, 0, none, none⟩ (by decide) rfl).1
      (by norm_num [sampleStore, LabelCenterBase._decay])

/-- C9: enqueue only appends the batch to the internal queue — the
committed field, the cache and the grid summary visible to readers are all
unchanged — and the next apply-tick applies every queued batch in order
and clears the queue, so submitted intents become visible atomically. -/
theorem enqueue_apply_atomic (lc : LabelCenter) (intents : List Intent)
    (source : Option String) (tk t : Option ℤ) :
    ((lc.enqueue_intents intents source tk).field = lc.field) ∧
    ((lc.enqueue_intents intents source tk).get_grid_summary.1
      = lc.get_grid_summary.1) ∧
    (intents ≠ [] →
      (lc.enqueue_intents intents source tk).intent_queue
        = lc.intent_queue ++ [⟨intents, source, tk⟩]) ∧
    ((∀ b ∈ (lc.enqueue_intents intents source tk).intent_queue,
        ∀ i ∈ b.intents, LabelCenter.Conform i) →
      (lc.enqueue_intents intents source tk).apply_tick t
        = .ok ⟨[], LabelCenter.applyBatches lc.field
            (lc.enqueue_intents intents source tk).intent_queue, none⟩) := by
  have hf : (lc.enqueue_intents intents source tk).field = lc.field := by
    unfold LabelCenter.enqueue_intents
    split <;> rfl
  have hc : (lc.enqueue_intents intents source tk)._grid_summary_cache
      = lc._grid_summary_cache := by
    unfold LabelCenter.enqueue_intents
    split <;> rfl
  refine ⟨hf, ?_, ?_, ?_⟩
  · unfold LabelCenter.get_grid_summary
    rw [hc]
    cases lc._grid_summary_cache with
    | some s => rfl
    | none => simpa using hf
  · intro hne
    unfold LabelCenter.enqueue_intents
    rw [if_neg (by simpa using hne)]
  · intro hconf
    rw [apply_tick_ok _ t hconf, hf]

/-- C9 witness: enqueuing one emit intent on a fresh LabelCenter leaves the
field empty, and the following apply-tick commits exactly the queued batch
and clears the queue. -/
theorem enqueue_apply_atomic_witness :
    ((LabelCenter.init.enqueue_intents
        [⟨"emit_label", some (2, 2), some "x", some 2⟩] none none).field
      = LabelCenter.init.field) ∧
    ((LabelCenter.init.enqueue_intents
        [⟨"emit_label", some (2, 2), some "x", some 2⟩] none none).apply_tick
        none
      = .ok ⟨[], LabelCenter.applyBatches LabelCenter.init.field
          (LabelCenter.init.enqueue_intents
            [⟨"emit_label", some (2, 2), some "x", some 2⟩]
            none none).intent_queue, none⟩) := by
  have h := enqueue_apply_atomic LabelCenter.init
    [⟨"emit_label", some (2, 2), some "x", some 2⟩] none none none
  exact ⟨h.1, h.2.2.2 (by decide)⟩

/-- C10: claim and release change only owned_by and cooldown_until, never
value or last_tick, so the ownership period is not excluded from elapsed
time: after a release, a read at any tick decays the stored value over the
whole interval from the entry original last_tick — the value preserved
while frozen is retroactively lost. -/
theorem claim_release_frame_spec :
    (∀ (st : LabelCenterBase) (c : Coord) (l claimant : String)
        (entry : Entry),
      st.lookupField c l = some entry → entry.owned_by = none →
      (∀ cu, entry.cooldown_until = some cu → ¬ st.current_tick < cu) →
      st.claim_label c l claimant
        = .ok (true,
            st.updateField c l { entry with owned_by := some claimant }) ∧
      (st.updateField c l
          { entry with owned_by := some claimant }).lookupField c l
        = some { entry with owned_by := some claimant }) ∧
    (∀ (st : LabelCenterBase) (c : Coord) (l owner : String) (entry : Entry),
      st.lookupField c l = some entry → entry.owned_by = some owner →
      ∃ st', st.release_label c l owner = .ok st' ∧
        st'.lookupField c l = some
          { entry with
            owned_by := none
            cooldown_until := some (st.current_tick + st.claim_cooldown) } ∧
        (∀ u : ℤ,
          ({ st' with current_tick := u } : LabelCenterBase).get_label c l
            = if ({ st' with current_tick := u } : LabelCenterBase)._decay
                  entry.value entry.last_tick < st.prune_threshold
              then 0
              else ({ st' with current_tick := u }
                  : LabelCenterBase)._decay entry.value entry.last_tick)) := by
  constructor
  · intro st c l claimant entry hx ho hcu
    exact ⟨claim_label_success claimant hx ho hcu, lookupField_updateField ..⟩
  · intro st c l owner entry hx ho
    refine ⟨_, release_label_success hx ho, lookupField_updateField ..,
      fun u => ?_⟩
    have hg := get_label_unowned
      { (st.updateField c l
          { entry with
            owned_by := none
            cooldown_until := some (st.current_tick + st.claim_cooldown) }) with
        current_tick := u }
      (lookupField_updateField st c l
        { entry with
          owned_by := none
          cooldown_until := some (st.current_tick + st.claim_cooldown) })
      rfl
    exact hg

/-- C10 witness: a successful claim of the free sample entry changes only
owned_by, and releasing the owned sample entry produces a store whose
reads at tick 10 decay the stored value from the original last_tick 0. -/
theorem claim_release_frame_spec_witness :
    (sampleStore.claim_label (0, 0) "antigen" "C"
      = .ok (true, sampleStore.updateField (0, 0) "antigen"
          { sampleFree with owned_by := some "C" })) ∧
    ∃ st', sampleStore.release_label (0, 0) "pmhc" "A" = .ok st' ∧
      st'.lookupField (0, 0) "pmhc"
        = some { sampleOwned with
            owned_by := none
            cooldown_until := some 3 } ∧
      ({ st' with current_tick := 10 } : LabelCenterBase).get_label (0, 0)
          "pmhc"
        = if ({ st' with current_tick := 10 } : LabelCenterBase)._decay
              sampleOwned.value sampleOwned.last_tick
              < sampleStore.prune_threshold
          then 0
          else ({ st' with current_tick := 10 } : LabelCenterBase)._decay
              sampleOwned.value sampleOwned.last_tick := by
  constructor
  · exact (claim_release_frame_spec.1 sampleStore (0, 0) "antigen" "C"
      sampleFree (by decide) (by decide)
      (fun cu h => absurd h (by simp [sampleFree]))).1
  · obtain ⟨st', h1, h2, h3⟩ := claim_release_frame_spec.2 sampleStore (0, 0)
      "pmhc" "A" sampleOwned (by decide) (by decide)
    exact ⟨st', h1, h2, h3 10⟩

end MacroImmunet
